import Mathlib

set_option maxHeartbeats 1000000

/-!
Verification of the download/track/schedule workflow in `download_yt_v.py`
and the publisher in `yt_uploader.py`.

The two top-level Python functions, `get_yt(url, save_path)` and
`upload_video(video_file, info_file)`, are shallowly embedded as pure Lean
functions over an explicit environment that supplies everything the code
reads from the outside world (tracking-file content, the current wall-clock
time, the outcome of the external extraction/upload collaborators, and the
success of each filesystem write).  Side effects are returned as an explicit
trace.  Python exceptions that can escape a code path are modelled with
`Except`.

Modelling notes:
* JSON numbers are modelled as integers; no claim depends on float payloads.
* Python `datetime` date arithmetic is modelled on an unbounded calendar
  (the 9999 upper bound of `datetime.MAXYEAR` is idealised away); leap years
  and month lengths follow the Gregorian rules used by `datetime`.
* `str.strip`/`str.isdigit` are modelled on ASCII whitespace/digits.
* Times of day are microseconds since midnight of the current local day
  (IST wall clock for the fetcher, the uploader's naive local clock for
  `get_next_upload_time`).
-/

namespace Yt

/-- JSON values as produced by Python's `json.load`.  Object fields keep file
order; lookup takes the last binding, matching how `dict` construction treats
duplicate keys. -/
inductive Json where
  | null
  | bool (b : Bool)
  | num (n : Int)
  | str (s : String)
  | arr (xs : List Json)
  | obj (fields : List (String × Json))

/-- The Python exceptions that can escape the translated code paths. -/
inductive PyExc where
  | keyError
  | indexError
  | typeError
  | attributeError
deriving DecidableEq

/-- Python truthiness of a JSON-decoded value (`if processed:` at line 53 of
`download_yt_v.py`). -/
def Json.truthy : Json → Bool
  | .null => false
  | .bool b => b
  | .num n => n != 0
  | .str s => s != ""
  | .arr xs => !xs.isEmpty
  | .obj fs => !fs.isEmpty

/-- Whether a JSON value is an object (a Python `dict`). -/
def Json.isObj : Json → Bool
  | .obj _ => true
  | _ => false

/-- Whether a JSON value is a list whose entries are all objects: the shape of
a well-formed tracking sequence. -/
def Json.isRecordList : Json → Bool
  | .arr xs => xs.all Json.isObj
  | _ => false

/-- Last-binding-wins lookup in an object's field list (Python `dict` lookup
after `json.load`). -/
def objLookup (fields : List (String × Json)) (key : String) : Option Json :=
  fields.foldl (fun acc p => if p.1 = key then some p.2 else acc) none

/-- Python `x[-1]` on a JSON-decoded value (line 54, `processed[-1]`):
last element of a list or string, `KeyError` on a dict, `TypeError` on
`None`/booleans/numbers, `IndexError` on empty lists/strings. -/
def pyIndexLast : Json → Except PyExc Json
  | .arr xs =>
    match xs.getLast? with
    | some x => .ok x
    | none => .error .indexError
  | .obj _ => .error .keyError
  | .str s =>
    match s.toList.getLast? with
    | some c => .ok (.str (String.mk [c]))
    | none => .error .indexError
  | _ => .error .typeError

/-- Python `x.get(key, default)` (lines 55 and 76): field lookup on a dict,
`AttributeError` on anything that is not a dict. -/
def pyGetD (j : Json) (key : String) (dflt : Json) : Except PyExc Json :=
  match j with
  | .obj fs => .ok ((objLookup fs key).getD dflt)
  | _ => .error .attributeError

/-- Python `for item in processed` (line 75): the items produced by iterating
a JSON-decoded value.  Lists yield their elements, dicts their keys, strings
their characters; `None`, booleans and numbers raise `TypeError`. -/
def pyIterItems : Json → Except PyExc (List Json)
  | .arr xs => .ok xs
  | .obj fs => .ok (fs.map fun p => Json.str p.1)
  | .str s => .ok (s.toList.map fun c => Json.str (String.mk [c]))
  | _ => .error .typeError

/-- Python `v == url` where `url` is a `str` (line 76): only equal strings
compare equal; values of any other type compare unequal. -/
def jsonEqStr (j : Json) (u : String) : Bool :=
  match j with
  | .str s => s == u
  | _ => false

/-- The `'url'` value of a tracking record as `record.get('url')` sees it:
the last `"url"` binding of an object, `null` when absent or when the record
is not an object. -/
def urlVal : Json → Json
  | .obj fs => (objLookup fs "url").getD .null
  | _ => .null

/-- A calendar date.  Python's `datetime` validates `1 <= month <= 12` and
`1 <= day <= days_in_month`; parsed dates always satisfy this. -/
structure Date where
  year : Nat
  month : Nat
  day : Nat
deriving DecidableEq

/-- Gregorian leap-year rule, as used by `datetime`. -/
def isLeap (y : Nat) : Bool :=
  (y % 4 == 0 && y % 100 != 0) || (y % 400 == 0)

/-- Length of a month, as used by `datetime`. -/
def daysInMonth (y m : Nat) : Nat :=
  if m = 2 then (if isLeap y then 29 else 28)
  else if m = 4 ∨ m = 6 ∨ m = 9 ∨ m = 11 then 30
  else 31

/-- `d + timedelta(days=1)` (lines 58, 62, 66 of the fetcher and line 46 of
the uploader), on the idealised unbounded calendar. -/
def addOneDay (d : Date) : Date :=
  if d.day < daysInMonth d.year d.month then ⟨d.year, d.month, d.day + 1⟩
  else if d.month < 12 then ⟨d.year, d.month + 1, 1⟩
  else ⟨d.year + 1, 1, 1⟩

/-- A wall-clock instant: a date plus a time of day in microseconds since
midnight. -/
structure DateTime where
  date : Date
  tod : Nat
deriving DecidableEq

/-- 06:30:00.000000 in microseconds since midnight (the fetcher's fixed
daily hour). -/
def sixThirtyUs : Nat := 23400000000

/-- 07:35:00.000000 in microseconds since midnight (the uploader's fixed
daily hour). -/
def sevenThirtyFiveUs : Nat := 27300000000

/-- Split a character list on a separator character, like Python
`str.split(sep)` for a one-character separator. -/
def splitOnChar (sep : Char) : List Char → List (List Char)
  | [] => [[]]
  | c :: rest =>
    match splitOnChar sep rest with
    | [] => [[]]
    | h :: t => if c == sep then [] :: h :: t else (c :: h) :: t

/-- All characters are ASCII digits. -/
def allDigits (l : List Char) : Bool :=
  l.all Char.isDigit

/-- Numeric value of a digit sequence. -/
def digitsVal (l : List Char) : Nat :=
  l.foldl (fun n c => n * 10 + (c.toNat - 48)) 0

/-- `%d` field of `strptime("%d-%m-%Y")`: one or two digits, or a space
followed by a nonzero digit (CPython's `' [1-9]'` alternative). -/
def parseDay (l : List Char) : Option Nat :=
  if l.length ≤ 2 then
    if !l.isEmpty && allDigits l then some (digitsVal l)
    else
      match l with
      | [' ', c] => if c.isDigit && c != '0' then some (c.toNat - 48) else none
      | _ => none
  else none

/-- `%m` field of `strptime("%d-%m-%Y")`: one or two digits. -/
def parseMonth (l : List Char) : Option Nat :=
  if l.length ≤ 2 && !l.isEmpty && allDigits l then some (digitsVal l) else none

/-- `%Y` field of `strptime("%d-%m-%Y")`: exactly four digits. -/
def parseYear (l : List Char) : Option Nat :=
  if l.length == 4 && allDigits l then some (digitsVal l) else none

/-- `datetime.strptime(s, "%d-%m-%Y")` (line 57): split on the literal
dashes, parse the three numeric fields, and validate the calendar date
(`datetime` requires `year >= 1`, a valid month and a valid day of month).
Returns `none` where Python raises `ValueError`. -/
def parseDMY (s : String) : Option Date :=
  match splitOnChar '-' s.toList with
  | [ds, ms, ys] =>
    match parseDay ds, parseMonth ms, parseYear ys with
    | some d, some m, some y =>
      if 1 ≤ y ∧ 1 ≤ m ∧ m ≤ 12 ∧ 1 ≤ d ∧ d ≤ daysInMonth y m then some ⟨y, m, d⟩
      else none
    | _, _, _ => none
  | _ => none

/-- The `try` body of lines 56-58 applied to the raw `schedule_date` value:
`strptime` raises `TypeError` on a non-string and `ValueError` on a
malformed string, both caught by the `except` at line 59.  On success the
next date is the parsed date plus one day. -/
def tryParseAdd (j : Json) : Option Date :=
  match j with
  | .str s => (parseDMY s).map addOneDay
  | _ => none

/-- Lines 60-62 / 64-66: `now.replace(hour=6, minute=30, second=0,
microsecond=0)`, bumped to the next day when that instant is `<=` now.
Since `replace` keeps the date, the datetime comparison reduces to comparing
the time of day with 06:30:00. -/
def fallbackNext (now : DateTime) : Date :=
  if sixThirtyUs ≤ now.tod then addOneDay now.date else now.date

/-- Lines 53-70 of `get_yt`: the computed schedule date.  `processed` is the
JSON value loaded from the tracking file.  Raises exactly where the Python
does: `processed[-1]` on a truthy non-list and `.get` on a non-dict last
element are outside any `try`.  The final `replace(hour=6, minute=30, ...)`
at line 68 does not change the date, so the schedule date is the computed
next date itself. -/
def scheduleStep (processed : Json) (now : DateTime) : Except PyExc Date :=
  if processed.truthy then
    match pyIndexLast processed with
    | .error e => .error e
    | .ok lastItem =>
      match pyGetD lastItem "schedule_date" (.str "") with
      | .error e => .error e
      | .ok sdv =>
        match tryParseAdd sdv with
        | some d => .ok d
        | none => .ok (fallbackNext now)
  else .ok (fallbackNext now)

/-- Two-digit zero padding, as in `strftime("%d")`/`("%m")`/`("%I")` etc. -/
def pad2 (n : Nat) : String :=
  if n < 10 then "0" ++ toString n else toString n

/-- Four-digit zero padding for `strftime("%Y")`. -/
def pad4 (n : Nat) : String :=
  if n < 10 then "000" ++ toString n
  else if n < 100 then "00" ++ toString n
  else if n < 1000 then "0" ++ toString n
  else toString n

/-- `strftime("%d-%m-%Y")` (line 69). -/
def formatDMY (d : Date) : String :=
  pad2 d.day ++ "-" ++ pad2 d.month ++ "-" ++ pad4 d.year

/-- Hour on the 12-hour clock for `strftime("%I")`. -/
def hour12 (h : Nat) : Nat :=
  if h % 12 = 0 then 12 else h % 12

/-- `strftime("%p")`. -/
def ampm (h : Nat) : String :=
  if h < 12 then "AM" else "PM"

/-- `now_ist.strftime("%d-%m-%Y %I:%M:%S %p IST")` (line 157). -/
def formatNowIST (now : DateTime) : String :=
  let h := now.tod / 3600000000
  let m := now.tod % 3600000000 / 60000000
  let s := now.tod % 60000000 / 1000000
  formatDMY now.date ++ " " ++ pad2 (hour12 h) ++ ":" ++ pad2 m ++ ":" ++ pad2 s
    ++ " " ++ ampm h ++ " IST"

/-- Python `str.strip()` character class, restricted to ASCII whitespace. -/
def pySpace (c : Char) : Bool :=
  c == ' ' || c == '\t' || c == '\n' || c == '\r' || c == '\x0b' || c == '\x0c'

/-- Python `str.strip()` on a character list. -/
def pyStripL (l : List Char) : List Char :=
  ((l.dropWhile pySpace).reverse.dropWhile pySpace).reverse

/-- Python `str.strip()`. -/
def pyStrip (s : String) : String :=
  String.mk (pyStripL s.toList)

/-- Python `str.isdigit()`, restricted to ASCII digits: nonempty and all
digits. -/
def pyIsDigit (l : List Char) : Bool :=
  !l.isEmpty && allDigits l

/-- Whether `pat` is an initial segment of `l`. -/
def startsWithL (pat l : List Char) : Bool :=
  match pat, l with
  | [], _ => true
  | _ :: _, [] => false
  | p :: ps, c :: cs => p == c && startsWithL ps cs

/-- Substring containment on character lists (Python's `in` on strings). -/
def containsL (pat : List Char) : List Char → Bool
  | [] => pat.isEmpty
  | c :: rest => startsWithL pat (c :: rest) || containsL pat rest

/-- `'-->' in line` (line 125). -/
def hasArrow (line : List Char) : Bool :=
  containsL ['-', '-', '>'] line

/-- The filter of line 125: keep a caption line when it contains no `-->`
timestamp, strips to something nonempty, and is not a bare numeric cue
index. -/
def keepLine (line : List Char) : Bool :=
  !hasArrow line && !(pyStripL line).isEmpty && !pyIsDigit (pyStripL line)

/-- Lines 123-126: split the caption payload on newlines and concatenate
each kept line's stripped text followed by one space.  (The persisted file
holds this text after a final `strip()`, line 140.) -/
def transcriptRaw (payload : String) : String :=
  String.mk ((splitOnChar '\n' payload.toList).foldl
    (fun acc line => if keepLine line then acc ++ pyStripL line ++ [' '] else acc) [])

/-- One entry of the `'en'` caption-track list returned by the extraction
collaborator: whether it carries a `'url'` key, and the outcome of fetching
and decoding its content (line 122; a failure there is caught and the loop
continues). -/
structure SubEntry where
  hasUrl : Bool
  fetched : Except Unit String

/-- Lines 119-130: walk the caption-track list; the first entry with a URL
whose fetch succeeds contributes its filtered text and breaks the loop;
fetch failures continue; entries without a URL are skipped. -/
def walkSubs : List SubEntry → String
  | [] => ""
  | e :: rest =>
    if e.hasUrl then
      match e.fetched with
      | .ok payload => transcriptRaw payload
      | .error _ => walkSubs rest
    else walkSubs rest

/-- The fields extracted from `ydl.extract_info` that the code reads:
`title`, `description` (possibly absent), `tags` (defaulted to `[]`), and
the effective `'en'` caption-track list (`none` when neither `subtitles`
nor `automatic_captions` has an `'en'` entry, lines 113-118). -/
structure ExtractInfo where
  title : Option String
  description : Option String
  tags : List String
  enSubs : Option (List SubEntry)

/-- Lines 111-135: the accumulated `transcript_text`. -/
def captionText (info : ExtractInfo) : String :=
  match info.enSubs with
  | none => ""
  | some subs => walkSubs subs

/-- The result dictionary of `get_yt` (lines 13-20). -/
structure FetchResult where
  title : Option String
  description : Option String
  tags : Option (List String)
  url : String
  video_file : Option String
  transcript_file : Option String
deriving DecidableEq

/-- The initial result value (all fields `None` except the echoed URL). -/
def emptyResult (url : String) : FetchResult :=
  { title := none, description := none, tags := none, url := url,
    video_file := none, transcript_file := none }

/-- Externally observable side effects of one `get_yt` call, in order.
Paths are relative to the save directory (the code uses fixed names). -/
inductive Effect where
  | delete (path : String)
  | network
  | writeTranscript (text : String)
  | writeMetadata (record : Json)
  | writeTrack (records : List Json)

/-- State of the tracking file `process_track.json` before the call:
absent, unreadable (`open` raises, caught at line 46), undecodable
(`json.JSONDecodeError`, caught at line 43), or decoded JSON content. -/
inductive TrackState where
  | absent
  | unreadable
  | decodeError
  | content (j : Json)

/-- Lines 39-50: the `processed` value after loading the tracking file.
Every failure branch resets to the empty list. -/
def loadedJson : TrackState → Json
  | .content j => j
  | _ => .arr []

/-- The element list of a JSON array (used to state properties of the
tracking sequence). -/
def recordsOf : Json → List Json
  | .arr xs => xs
  | _ => []

/-- Environment read by the part of `get_yt` that follows the duplicate
check: which artifact files currently exist, the extraction outcome, and
whether each of the three writes succeeds (each is wrapped in its own
`try`). -/
structure DlEnv where
  videoExists : Bool
  jsonExists : Bool
  transcriptExists : Bool
  download : Except Unit ExtractInfo
  transcriptWriteOk : Bool
  metadataWriteOk : Bool
  trackWriteOk : Bool
  now : DateTime

/-- Lines 81-87: best-effort deletion of pre-existing artifact files (only
attempted on files that exist; failures would be logged and skipped, which
leaves the trace unchanged). -/
def deleteEffects (dl : DlEnv) : List Effect :=
  (if dl.videoExists then [Effect.delete "yt_video.mp4"] else [])
    ++ (if dl.jsonExists then [Effect.delete "yt_metadata.json"] else [])
    ++ (if dl.transcriptExists then [Effect.delete "yt_transcript.txt"] else [])

/-- Lines 149-158: the metadata record appended to the tracking sequence. -/
def metadataJson (title description : Option String) (tags : List String)
    (url : String) (hasTranscript : Bool) (schedDate : Date) (now : DateTime) : Json :=
  .obj [("title", match title with | some s => .str s | none => .null),
        ("description", match description with | some s => .str s | none => .null),
        ("tags", .arr (tags.map Json.str)),
        ("url", .str url),
        ("has_transcript", .bool hasTranscript),
        ("schedule_date", .str (formatDMY schedDate)),
        ("schedule_time", .str (formatDMY schedDate ++ " 06:30 AM IST")),
        ("processed_at", .str (formatNowIST now))]

/-- The metadata record built on a successful extraction. -/
def mdOf (info : ExtractInfo) (url : String) (schedDate : Date) (now : DateTime) : Json :=
  metadataJson info.title info.description info.tags url
    (captionText info != "") schedDate now

/-- The result dictionary populated at lines 105-108 and (on a successful
transcript write) line 141. -/
def successResult (dl : DlEnv) (info : ExtractInfo) (url : String) : FetchResult :=
  { title := info.title, description := info.description, tags := some info.tags,
    url := url, video_file := some "yt_video.mp4",
    transcript_file :=
      if captionText info != "" && dl.transcriptWriteOk then some "yt_transcript.txt"
      else none }

/-- The effect trace of a successful extraction: deletions, the network
call, then the transcript / metadata / tracking writes that succeed.  The
tracking write only happens when `processed` is an actual list: on any
other value `processed.append` raises at line 168 and is caught at
line 172. -/
def successEffects (dl : DlEnv) (info : ExtractInfo) (processed : Json)
    (url : String) (schedDate : Date) : List Effect :=
  deleteEffects dl ++ [Effect.network]
    ++ (if captionText info != "" && dl.transcriptWriteOk then
          [Effect.writeTranscript (pyStrip (captionText info))]
        else [])
    ++ (if dl.metadataWriteOk then
          [Effect.writeMetadata (mdOf info url schedDate dl.now)]
        else [])
    ++ (match processed with
        | .arr xs =>
          if dl.trackWriteOk then [Effect.writeTrack (xs ++ [mdOf info url schedDate dl.now])]
          else []
        | _ => [])

/-- Lines 80-183: everything after the duplicate check.  The whole download
block sits in the `try` of lines 89-181, so an extraction failure returns
the still-empty result after the deletions and the attempted network
call. -/
def downloadPhase (dl : DlEnv) (processed : Json) (url : String)
    (schedDate : Date) : FetchResult × List Effect :=
  match dl.download with
  | .error _ => (emptyResult url, deleteEffects dl ++ [Effect.network])
  | .ok info => (successResult dl info url, successEffects dl info processed url schedDate)

/-- Full environment of one `get_yt` call. -/
structure GetYtEnv where
  makedirsOk : Bool
  videoExists : Bool
  jsonExists : Bool
  transcriptExists : Bool
  track : TrackState
  now : DateTime
  download : Except Unit ExtractInfo
  transcriptWriteOk : Bool
  metadataWriteOk : Bool
  trackWriteOk : Bool

/-- The download-phase slice of the environment. -/
def GetYtEnv.dl (env : GetYtEnv) : DlEnv :=
  { videoExists := env.videoExists, jsonExists := env.jsonExists,
    transcriptExists := env.transcriptExists, download := env.download,
    transcriptWriteOk := env.transcriptWriteOk,
    metadataWriteOk := env.metadataWriteOk, trackWriteOk := env.trackWriteOk,
    now := env.now }

/-- Lines 75-78: the linear duplicate scan.  Runs `item.get('url')` on each
item in order (raising `AttributeError` on a non-dict item) and stops at
the first item whose `'url'` value equals the input URL. -/
def dedupScan (url : String) : List Json → Except PyExc Bool
  | [] => .ok false
  | it :: rest =>
    match pyGetD it "url" Json.null with
    | .error e => .error e
    | .ok v => if jsonEqStr v url then .ok true else dedupScan url rest

/-- `get_yt(url, save_path)` (`download_yt_v.py`, lines 7-183).  Returns the
result dictionary together with the ordered trace of externally observable
side effects, or the Python exception that propagates out of the call.
A `makedirs` failure (lines 23-27) returns the empty result immediately;
then the tracking file is loaded, the schedule date computed, the duplicate
scan run (returning the empty result with no side effects on a hit), and
only then do deletion, download and the writes happen. -/
def getYt (env : GetYtEnv) (url : String) : Except PyExc (FetchResult × List Effect) :=
  if env.makedirsOk = false then .ok (emptyResult url, [])
  else
    match scheduleStep (loadedJson env.track) env.now with
    | .error e => .error e
    | .ok schedDate =>
      match pyIterItems (loadedJson env.track) with
      | .error e => .error e
      | .ok items =>
        match dedupScan url items with
        | .error e => .error e
        | .ok true => .ok (emptyResult url, [])
        | .ok false => .ok (downloadPhase env.dl (loadedJson env.track) url schedDate)

/-- Metadata loaded by the uploader (`load_metadata` returns the parsed
JSON or `None` on any failure).  `none` in a field models an absent key
(the records written by `get_yt` always carry all keys; JSON `null` values
for these keys are outside the modelled domain). -/
structure Metadata where
  title : Option String
  description : Option String
  tags : Option (List String)
deriving DecidableEq

/-- The publish details built by `prepare_video_details` (lines 92-96). -/
structure VideoDetails where
  title : String
  description : String
  tags : List String
deriving DecidableEq

/-- The fixed hashtag suffix (line 61 of `yt_uploader.py`). -/
def defaultHashtags : String := "#sciencefacts #amazingfacts #subscribe #shorts"

/-- The fixed default tag list (line 86). -/
def defaultTags : List String := ["shorts", "sciencefacts", "amazingfacts", "subscribe"]

/-- `prepare_video_details(metadata)` (lines 59-96).  `none` models a falsy
`metadata` argument (`None` or an empty dict). -/
def prepareVideoDetails : Option Metadata → VideoDetails
  | none =>
    { title := "Amazing Short Video",
      description := "Check out this awesome short video! 🔥\n\n" ++ defaultHashtags,
      tags := ["shorts", "sciencefacts", "amazingfacts", "subscribe", "viral", "trending"] }
  | some md =>
    let title0 := md.title.getD "Untitled Video"
    let title := if title0.length > 90 then String.mk (title0.toList.take 90) else title0
    let desc0 := md.description.getD ""
    let description := if desc0 != "" then desc0 ++ "\n\n" ++ defaultHashtags else defaultHashtags
    let tags := defaultTags.foldl
      (fun acc t => if acc.contains t then acc else acc ++ [t]) (md.tags.getD [])
    { title := title, description := description, tags := tags }

/-- `get_next_upload_time()` (lines 41-48): 7:35 AM today, or tomorrow when
`now >= scheduled_time`.  `datetime.combine(now.date(), time(7, 35))` keeps
the date, so the comparison reduces to the time of day. -/
def nextUploadTime (now : DateTime) : DateTime :=
  if sevenThirtyFiveUs ≤ now.tod then ⟨addOneDay now.date, sevenThirtyFiveUs⟩
  else ⟨now.date, sevenThirtyFiveUs⟩

/-- Result of `upload_video`: a success dictionary carrying the assigned
video id, or an error dictionary carrying the stringified exception. -/
inductive UploadResult where
  | success (videoId : String)
  | failure (msg : String)
deriving DecidableEq

/-- Externally observable side effects of `upload_video`. -/
inductive UEffect where
  | authenticate
  | uploadMedia
deriving DecidableEq

/-- Environment of one `upload_video` call: whether the media file exists,
the loaded metadata, the current (naive local) time, and the outcomes of
authentication and of the chunked upload (each `.error` carries the
stringified exception). -/
structure UploadEnv where
  videoFile : String
  videoExists : Bool
  metadata : Option Metadata
  now : DateTime
  auth : Except String Unit
  upload : Except String String

/-- `upload_video(video_file, info_file)` (`yt_uploader.py`, lines 99-156).
The whole body is wrapped in `try/except Exception`, which converts any
failure into an error dictionary, so the function always returns.  A
missing media file returns an error result before anything else happens
(lines 102-103); otherwise metadata, details and the schedule slot are
computed, then authentication runs, then the chunked upload. -/
def uploadVideo (env : UploadEnv) : UploadResult × List UEffect :=
  if env.videoExists = false then
    (.failure ("File not found: " ++ env.videoFile), [])
  else
    let _details := prepareVideoDetails env.metadata
    let _sched := nextUploadTime env.now
    match env.auth with
    | .error e => (.failure e, [.authenticate])
    | .ok _ =>
      match env.upload with
      | .error e => (.failure e, [.authenticate, .uploadMedia])
      | .ok vid => (.success vid, [.authenticate, .uploadMedia])

/-- URL uniqueness of a tracking sequence: the `'url'` values of its records
are pairwise distinct. -/
def uniqueUrls (rs : List Json) : Prop :=
  (rs.map urlVal).Pairwise (· ≠ ·)

/-- A baseline fetcher environment for concrete runs: directory creation
succeeds, no artifact files exist, no tracking file, the extraction
collaborator fails, and all writes fail. -/
def baseEnv : GetYtEnv :=
  { makedirsOk := true, videoExists := false, jsonExists := false,
    transcriptExists := false, track := .absent, now := ⟨⟨2024, 1, 1⟩, 0⟩,
    download := .error (), transcriptWriteOk := false, metadataWriteOk := false,
    trackWriteOk := false }

/-- Concrete environment whose tracking sequence already holds the URL
`https://x`, with all three artifact files present on disk. -/
def dupEnv : GetYtEnv :=
  { baseEnv with
    track := .content (.arr [.obj [("url", .str "https://x"), ("schedule_date", .str "15-06-2024")]]),
    videoExists := true, jsonExists := true, transcriptExists := true }

/-- Concrete environment with no tracking file, a successful extraction with
no captions, and a successful tracking write. -/
def uniqEnv : GetYtEnv :=
  { baseEnv with
    now := ⟨⟨2024, 6, 15⟩, 0⟩, download := .ok ⟨none, none, [], none⟩,
    trackWriteOk := true }

/-- The tracking record `uniqEnv`'s run appends. -/
def uniqMd : Json :=
  metadataJson none none [] "b" false ⟨2024, 6, 15⟩ ⟨⟨2024, 6, 15⟩, 0⟩

/-- The result dictionary of `uniqEnv`'s run. -/
def uniqRes : FetchResult :=
  { title := none, description := none, tags := some [], url := "b",
    video_file := some "yt_video.mp4", transcript_file := none }

/-- Concrete environment whose extraction yields one caption track with the
claim's four-line payload, and whose transcript write succeeds. -/
def capEnv : GetYtEnv :=
  { baseEnv with
    now := ⟨⟨2024, 6, 15⟩, 0⟩,
    download := .ok ⟨some "T", none, [], some [⟨true, .ok "1\n00:00:01 --> 00:00:02\nHello world\n"⟩]⟩,
    transcriptWriteOk := true }

/-- The result dictionary of `capEnv`'s run. -/
def capRes : FetchResult :=
  { title := some "T", description := none, tags := some [], url := "u",
    video_file := some "yt_video.mp4", transcript_file := some "yt_transcript.txt" }

/-- Concrete uploader environment whose media file is missing. -/
def missEnv : UploadEnv :=
  { videoFile := "out.mp4", videoExists := false, metadata := none,
    now := ⟨⟨2024, 1, 1⟩, 0⟩, auth := .ok (), upload := .ok "id" }

/-- Metadata whose description already consists of the default hashtags. -/
def dupDescMd : Metadata :=
  { title := some "T", description := some defaultHashtags, tags := some [] }

theorem mem_of_getLastQ {α : Type} {l : List α} {a : α} (h : l.getLast? = some a) :
    a ∈ l := by
  induction l with
  | nil => simp [List.getLast?] at h
  | cons x xs ih =>
    cases xs with
    | nil =>
      simp [List.getLast?] at h
      simp [h]
    | cons y ys =>
      rw [List.getLast?_cons_cons] at h
      exact List.mem_cons_of_mem _ (ih h)

theorem getLastQ_isSome {α : Type} (x : α) (l : List α) :
    ∃ a, (x :: l).getLast? = some a := by
  induction l generalizing x with
  | nil => exact ⟨x, rfl⟩
  | cons y ys ih =>
    rw [List.getLast?_cons_cons]
    exact ih y

theorem jsonEqStr_iff (j : Json) (u : String) : jsonEqStr j u = true ↔ j = .str u := by
  cases j <;> simp [jsonEqStr]

theorem scheduleStep_ok_of_records (rs : List Json) (now : DateTime)
    (hobj : ∀ r ∈ rs, r.isObj = true) :
    ∃ d, scheduleStep (.arr rs) now = .ok d := by
  cases rs with
  | nil => exact ⟨fallbackNext now, rfl⟩
  | cons a l =>
    obtain ⟨last, hlast⟩ := getLastQ_isSome a l
    have hmem := mem_of_getLastQ hlast
    have hobj' := hobj last hmem
    cases last with
    | obj fs =>
      simp only [scheduleStep, Json.truthy, List.isEmpty_cons, Bool.not_false, if_true,
        pyIndexLast, hlast, pyGetD]
      cases htp : tryParseAdd ((objLookup fs "schedule_date").getD (.str "")) with
      | some d => exact ⟨d, by simp [htp]⟩
      | none => exact ⟨fallbackNext now, by simp [htp]⟩
    | null => simp [Json.isObj] at hobj'
    | bool b => simp [Json.isObj] at hobj'
    | num n => simp [Json.isObj] at hobj'
    | str s => simp [Json.isObj] at hobj'
    | arr xs => simp [Json.isObj] at hobj'

theorem dedupScan_ok_of_objs (url : String) (rs : List Json)
    (hobj : ∀ r ∈ rs, r.isObj = true) :
    ∃ b, dedupScan url rs = .ok b := by
  induction rs with
  | nil => exact ⟨false, rfl⟩
  | cons a l ih =>
    have ha := hobj a (List.mem_cons_self a l)
    cases a with
    | obj fs =>
      simp only [dedupScan, pyGetD]
      by_cases h : jsonEqStr ((objLookup fs "url").getD .null) url
      · exact ⟨true, by simp [h]⟩
      · obtain ⟨b, hb⟩ := ih (fun r hr => hobj r (List.mem_cons_of_mem _ hr))
        exact ⟨b, by simp [h, hb]⟩
    | null => simp [Json.isObj] at ha
    | bool b => simp [Json.isObj] at ha
    | num n => simp [Json.isObj] at ha
    | str s => simp [Json.isObj] at ha
    | arr xs => simp [Json.isObj] at ha

theorem dedupScan_found (url : String) (rs : List Json)
    (hobj : ∀ r ∈ rs, r.isObj = true)
    (hdup : ∃ r ∈ rs, urlVal r = .str url) :
    dedupScan url rs = .ok true := by
  induction rs with
  | nil => obtain ⟨r, hr, _⟩ := hdup; exact absurd hr (List.not_mem_nil r)
  | cons a l ih =>
    have ha := hobj a (List.mem_cons_self a l)
    cases a with
    | obj fs =>
      simp only [dedupScan, pyGetD]
      by_cases h : jsonEqStr ((objLookup fs "url").getD .null) url
      · simp [h]
      · obtain ⟨r, hr, hu⟩ := hdup
        rcases List.mem_cons.mp hr with hre | hrl
        · exfalso
          apply h
          rw [jsonEqStr_iff]
          rw [hre] at hu
          simpa [urlVal] using hu
        · simp only [h, if_false]
          exact ih (fun r hr => hobj r (List.mem_cons_of_mem _ hr)) ⟨r, hrl, hu⟩
    | null => simp [Json.isObj] at ha
    | bool b => simp [Json.isObj] at ha
    | num n => simp [Json.isObj] at ha
    | str s => simp [Json.isObj] at ha
    | arr xs => simp [Json.isObj] at ha

theorem dedupScan_false_not_found (url : String) (rs : List Json)
    (h : dedupScan url rs = .ok false) :
    ∀ r ∈ rs, urlVal r ≠ .str url := by
  induction rs with
  | nil => intro r hr; exact absurd hr (List.not_mem_nil r)
  | cons a l ih =>
    intro r hr
    cases a with
    | obj fs =>
      simp only [dedupScan, pyGetD] at h
      by_cases hm : jsonEqStr ((objLookup fs "url").getD .null) url
      · simp [hm] at h
      · simp only [hm, if_false] at h
        rcases List.mem_cons.mp hr with hre | hrl
        · subst hre
          intro hcon
          apply hm
          rw [jsonEqStr_iff]
          simpa [urlVal] using hcon
        · exact ih h r hrl
    | null => simp [dedupScan, pyGetD] at h
    | bool b => simp [dedupScan, pyGetD] at h
    | num n => simp [dedupScan, pyGetD] at h
    | str s => simp [dedupScan, pyGetD] at h
    | arr xs => simp [dedupScan, pyGetD] at h

theorem urlVal_mdOf (info : ExtractInfo) (url : String) (d : Date) (now : DateTime) :
    urlVal (mdOf info url d now) = .str url := rfl

theorem mem_deleteEffects {dl : DlEnv} {e : Effect} (h : e ∈ deleteEffects dl) :
    ∃ p, e = Effect.delete p := by
  unfold deleteEffects at h
  rcases List.mem_append.mp h with h | h
  · rcases List.mem_append.mp h with h | h
    · split at h <;> simp at h
      exact ⟨_, h⟩
    · split at h <;> simp at h
      exact ⟨_, h⟩
  · split at h <;> simp at h
    exact ⟨_, h⟩

theorem writeTrack_mem_downloadPhase {dl : DlEnv} {processed : Json} {url : String}
    {d : Date} {ws : List Json}
    (h : Effect.writeTrack ws ∈ (downloadPhase dl processed url d).2) :
    ∃ xs m, processed = .arr xs ∧ ws = xs ++ [m] ∧ urlVal m = .str url := by
  unfold downloadPhase at h
  cases hdl : dl.download with
  | error e =>
    rw [hdl] at h
    simp only at h
    rcases List.mem_append.mp h with h | h
    · obtain ⟨p, hp⟩ := mem_deleteEffects h
      exact absurd hp (by simp)
    · simp at h
  | ok info =>
    rw [hdl] at h
    simp only [successEffects] at h
    rcases List.mem_append.mp h with h | h
    · rcases List.mem_append.mp h with h | h
      · rcases List.mem_append.mp h with h | h
        · rcases List.mem_append.mp h with h | h
          · obtain ⟨p, hp⟩ := mem_deleteEffects h
            exact absurd hp (by simp)
          · simp at h
        · split at h <;> simp at h
      · split at h <;> simp at h
    · cases hp : processed with
      | arr xs =>
        rw [hp] at h
        simp only at h
        split at h
        · simp only [List.mem_singleton] at h
          injection h with h'
          exact ⟨xs, mdOf info url d dl.now, rfl, h', urlVal_mdOf info url d dl.now⟩
        · simp at h
      | null => rw [hp] at h; simp at h
      | bool b => rw [hp] at h; simp at h
      | num n => rw [hp] at h; simp at h
      | str s => rw [hp] at h; simp at h
      | obj fs => rw [hp] at h; simp at h

theorem foldAddTags (ds : List String) (hd : ds.Nodup) (base : List String) :
    ds.foldl (fun acc t => if acc.contains t then acc else acc ++ [t]) base
      = base ++ ds.filter (fun t => !(base.contains t)) := by
  induction ds generalizing base with
  | nil => simp
  | cons d ds' ih =>
    have hd' : ds'.Nodup := hd.of_cons
    have hdm : d ∉ ds' := (List.nodup_cons.mp hd).1
    simp only [List.foldl_cons]
    by_cases h : base.contains d
    · rw [if_pos h, ih hd' base, List.filter_cons, h]
      simp
    · have hf : base.contains d = false := by simpa using h
      rw [if_neg h, ih hd' (base ++ [d]), List.filter_cons, hf]
      simp only [Bool.not_false, if_true]
      rw [List.append_assoc]
      congr 1
      simp only [List.singleton_append]
      congr 1
      apply List.filter_congr
      intro t ht
      have htd : t ≠ d := fun he => hdm (he ▸ ht)
      simp [htd]

theorem getYt_records_ok (env : GetYtEnv) (url : String) (xs : List Json)
    (ht : loadedJson env.track = .arr xs) (hobj : ∀ r ∈ xs, r.isObj = true) :
    ∃ out, getYt env url = .ok out := by
  obtain ⟨d, hd⟩ := scheduleStep_ok_of_records xs env.now hobj
  obtain ⟨b, hb⟩ := dedupScan_ok_of_objs url xs hobj
  by_cases hmk : env.makedirsOk = false
  · exact ⟨(emptyResult url, []), by unfold getYt; rw [if_pos hmk]⟩
  · cases b with
    | true =>
      refine ⟨(emptyResult url, []), ?_⟩
      unfold getYt
      rw [if_neg hmk, ht, hd]
      simp only [pyIterItems]
      rw [hb]
    | false =>
      refine ⟨downloadPhase env.dl (.arr xs) url d, ?_⟩
      unfold getYt
      rw [if_neg hmk, ht, hd]
      simp only [pyIterItems]
      rw [hb]

/-- Claim C1: for every URL that already appears as the `'url'` field of some
record of the loaded tracking sequence, `get_yt` performs no network call and
no side effects (in particular no deletion of the pre-existing artifact
files, which may all be present), and returns a result whose fields are all
null except the echoed URL. -/
theorem getYt_dup_skip (env : GetYtEnv) (url : String) (rs : List Json)
    (htr : env.track = .content (.arr rs))
    (hobj : ∀ r ∈ rs, r.isObj = true)
    (hdup : ∃ r ∈ rs, urlVal r = .str url) :
    getYt env url = .ok (emptyResult url, []) := by
  obtain ⟨d, hd⟩ := scheduleStep_ok_of_records rs env.now hobj
  have hscan := dedupScan_found url rs hobj hdup
  unfold getYt
  rw [htr]
  simp only [loadedJson, hd, pyIterItems, hscan]
  cases env.makedirsOk <;> simp

/-- Claim C1 witness: a run against a tracking sequence already holding the
input URL, with all three artifact files present, returns the empty result
and an empty effect trace. -/
theorem getYt_dup_skip_witness :
    getYt dupEnv "https://x" = .ok (emptyResult "https://x", []) :=
  getYt_dup_skip dupEnv "https://x"
    [.obj [("url", .str "https://x"), ("schedule_date", .str "15-06-2024")]]
    rfl
    (fun r hr => by
      rw [List.mem_singleton] at hr
      subst hr
      rfl)
    ⟨.obj [("url", .str "https://x"), ("schedule_date", .str "15-06-2024")],
      List.mem_singleton.mpr rfl, rfl⟩

/-- Claim C2: URL uniqueness is an invariant of the tracking sequence.  If
the loaded sequence has pairwise-distinct `'url'` values, then any sequence
`get_yt` writes back to the tracking file (the original sequence with at most
one record appended, guarded by the linear duplicate scan) again has
pairwise-distinct `'url'` values. -/
theorem getYt_url_uniqueness (env : GetYtEnv) (url : String)
    (res : FetchResult) (effs : List Effect) (ws : List Json)
    (hrun : getYt env url = .ok (res, effs))
    (hmem : Effect.writeTrack ws ∈ effs)
    (huniq : uniqueUrls (recordsOf (loadedJson env.track))) :
    uniqueUrls ws := by
  unfold getYt at hrun
  by_cases hmk : env.makedirsOk = false
  · rw [if_pos hmk] at hrun
    simp only [Except.ok.injEq, Prod.mk.injEq] at hrun
    obtain ⟨h1, h2⟩ := hrun
    rw [← h2] at hmem
    exact absurd hmem (List.not_mem_nil _)
  · rw [if_neg hmk] at hrun
    cases hs : scheduleStep (loadedJson env.track) env.now with
    | error e => rw [hs] at hrun; simp at hrun
    | ok d =>
      rw [hs] at hrun
      simp only at hrun
      cases hit : pyIterItems (loadedJson env.track) with
      | error e => rw [hit] at hrun; simp at hrun
      | ok items =>
        rw [hit] at hrun
        simp only at hrun
        cases hsc : dedupScan url items with
        | error e => rw [hsc] at hrun; simp at hrun
        | ok b =>
          rw [hsc] at hrun
          cases b with
          | true =>
            simp only [Except.ok.injEq, Prod.mk.injEq] at hrun
            obtain ⟨h1, h2⟩ := hrun
            rw [← h2] at hmem
            exact absurd hmem (List.not_mem_nil _)
          | false =>
            simp only [Except.ok.injEq] at hrun
            have heff : effs = (downloadPhase env.dl (loadedJson env.track) url d).2 := by
              rw [hrun]
            rw [heff] at hmem
            obtain ⟨xs, m, hp, hws, hu⟩ := writeTrack_mem_downloadPhase hmem
            rw [hp] at huniq
            simp only [recordsOf] at huniq
            rw [hp] at hit
            simp only [pyIterItems, Except.ok.injEq] at hit
            rw [← hit] at hsc
            have hnot := dedupScan_false_not_found url xs hsc
            subst hws
            unfold uniqueUrls
            rw [List.map_append, List.pairwise_append]
            refine ⟨huniq, by simp, ?_⟩
            intro a ha b hb
            simp only [List.map_cons, List.map_nil, List.mem_singleton] at hb
            subst hb
            simp only [List.mem_map] at ha
            obtain ⟨r, hr, hra⟩ := ha
            rw [← hra, hu]
            exact hnot r hr

/-- Claim C2 witness: a run against an empty tracking sequence (vacuously
unique) writes back a single-record sequence, which is again unique. -/
theorem getYt_url_uniqueness_witness : uniqueUrls [uniqMd] :=
  getYt_url_uniqueness uniqEnv "b" uniqRes
    [Effect.network, Effect.writeTrack [uniqMd]] [uniqMd]
    rfl
    (List.mem_cons_of_mem _ (List.mem_cons_self _ _))
    (by
      show ([] : List Json).map urlVal |>.Pairwise (· ≠ ·)
      simp)

/-- Claim C3: for every non-empty tracking sequence whose last record's
`schedule_date` value parses in the `DD-MM-YYYY` format, the schedule date
`get_yt` computes is that date plus exactly one day, for every current
time. -/
theorem scheduleStep_last_plus_one (rs : List Json) (now : DateTime)
    (fs : List (String × Json)) (s : String) (d : Date)
    (hlast : rs.getLast? = some (.obj fs))
    (hsd : (objLookup fs "schedule_date").getD (.str "") = .str s)
    (hparse : parseDMY s = some d) :
    scheduleStep (.arr rs) now = .ok (addOneDay d) := by
  cases rs with
  | nil => simp [List.getLast?] at hlast
  | cons a l =>
    simp only [scheduleStep, Json.truthy, List.isEmpty_cons, Bool.not_false, if_true,
      pyIndexLast, hlast, pyGetD, hsd, tryParseAdd, hparse, Option.map_some']

/-- Claim C3 witness: with a last record scheduled for 15-06-2024, the
computed schedule date is 16-06-2024, at an unrelated current time. -/
theorem scheduleStep_last_plus_one_witness :
    scheduleStep (.arr [.obj [("schedule_date", .str "15-06-2024")]]) ⟨⟨2024, 1, 1⟩, 0⟩
      = .ok ⟨2024, 6, 16⟩ :=
  scheduleStep_last_plus_one [.obj [("schedule_date", .str "15-06-2024")]]
    ⟨⟨2024, 1, 1⟩, 0⟩ [("schedule_date", .str "15-06-2024")] "15-06-2024" ⟨2024, 6, 15⟩
    rfl rfl rfl

/-- Claim C4: with an empty tracking sequence, the computed schedule date is
today when the current time is before the fixed daily hour 06:30, and
tomorrow when it is after. -/
theorem scheduleStep_empty_track (now : DateTime) :
    (now.tod < sixThirtyUs → scheduleStep (.arr []) now = .ok now.date) ∧
    (sixThirtyUs < now.tod → scheduleStep (.arr []) now = .ok (addOneDay now.date)) := by
  constructor
  · intro h
    have hn : ¬ sixThirtyUs ≤ now.tod := by omega
    simp [scheduleStep, Json.truthy, fallbackNext, hn]
  · intro h
    have hy : sixThirtyUs ≤ now.tod := Nat.le_of_lt h
    simp [scheduleStep, Json.truthy, fallbackNext, hy]

/-- Claim C4 witness: at midnight the schedule date is today; at 08:20 it is
tomorrow. -/
theorem scheduleStep_empty_track_witness :
    scheduleStep (.arr []) ⟨⟨2024, 6, 15⟩, 0⟩ = .ok ⟨2024, 6, 15⟩ ∧
    scheduleStep (.arr []) ⟨⟨2024, 6, 15⟩, 30000000000⟩ = .ok ⟨2024, 6, 16⟩ :=
  ⟨(scheduleStep_empty_track ⟨⟨2024, 6, 15⟩, 0⟩).1 (by decide),
   (scheduleStep_empty_track ⟨⟨2024, 6, 15⟩, 30000000000⟩).2 (by decide)⟩

/-- Claim C5 counterexample: a tracking file holding the valid JSON object
`{"a": 1}` (not a list of records) does not make `get_yt` proceed as if the
sequence were empty: the call raises `KeyError` (from `processed[-1]` at
line 54), while the as-if-empty run returns a result. -/
theorem getYt_object_track_raises :
    getYt { baseEnv with track := .content (.obj [("a", .num 1)]) } "u" = .error .keyError ∧
    getYt { baseEnv with track := .content (.arr []) } "u"
        = .ok (emptyResult "u", [Effect.network]) :=
  ⟨rfl, rfl⟩

/-- Claim C5 (amended): tracking-file content that fails JSON decoding, or
cannot be read at all, makes `get_yt` proceed exactly as if the sequence
were empty, without raising. -/
theorem getYt_bad_decode_as_empty (env : GetYtEnv) (url : String) :
    getYt { env with track := .decodeError } url
        = getYt { env with track := .content (.arr []) } url ∧
    getYt { env with track := .unreadable } url
        = getYt { env with track := .content (.arr []) } url ∧
    ∃ out, getYt { env with track := .decodeError } url = .ok out := by
  refine ⟨rfl, rfl, ?_⟩
  exact getYt_records_ok _ url [] rfl (by intro r hr; exact absurd hr (List.not_mem_nil r))

/-- Claim C6 counterexample: `get_yt` can raise.  A tracking file holding the
valid JSON list `[1]` makes `processed[-1].get(...)` raise `AttributeError`
at line 55, which is outside every `try` block and propagates to the
caller. -/
theorem getYt_nonrecord_list_raises :
    getYt { baseEnv with track := .content (.arr [.num 1]) } "u" = .error .attributeError :=
  rfl

/-- Claim C6 (amended): `upload_video` always returns a success or an error
dictionary, and `get_yt` returns its result structure on every execution path
provided the loaded tracking content is a list of objects (in particular when
the tracking file is absent, unreadable or undecodable). -/
theorem top_level_no_raise_amended :
    (∀ uenv : UploadEnv,
      (∃ v, (uploadVideo uenv).1 = .success v) ∨ (∃ m, (uploadVideo uenv).1 = .failure m)) ∧
    (∀ (env : GetYtEnv) (url : String),
      (loadedJson env.track).isRecordList = true → ∃ out, getYt env url = .ok out) := by
  constructor
  · intro uenv
    unfold uploadVideo
    by_cases hv : uenv.videoExists = false
    · right
      exact ⟨_, by rw [if_pos hv]⟩
    · rw [if_neg hv]
      cases ha : uenv.auth with
      | error e => right; exact ⟨e, by simp [ha]⟩
      | ok u =>
        cases hu : uenv.upload with
        | error e => right; exact ⟨e, by simp [ha, hu]⟩
        | ok v => left; exact ⟨v, by simp [ha, hu]⟩
  · intro env url hrl
    cases ht : loadedJson env.track with
    | arr xs =>
      rw [ht] at hrl
      simp only [Json.isRecordList, List.all_eq_true] at hrl
      exact getYt_records_ok env url xs ht hrl
    | null => rw [ht] at hrl; simp [Json.isRecordList] at hrl
    | bool b => rw [ht] at hrl; simp [Json.isRecordList] at hrl
    | num n => rw [ht] at hrl; simp [Json.isRecordList] at hrl
    | str s => rw [ht] at hrl; simp [Json.isRecordList] at hrl
    | obj fs => rw [ht] at hrl; simp [Json.isRecordList] at hrl

/-- Claim C6 witness: a run against a one-record tracking sequence returns
without raising. -/
theorem top_level_no_raise_amended_witness :
    ∃ out, getYt { baseEnv with track := .content (.arr [.obj []]) } "u" = .ok out :=
  top_level_no_raise_amended.2 { baseEnv with track := .content (.arr [.obj []]) } "u" rfl

/-- Claim C7: when the media file does not exist, `upload_video` returns an
error result immediately, with an empty effect trace: in particular no
authentication step runs. -/
theorem uploadVideo_missing_file (env : UploadEnv) (h : env.videoExists = false) :
    uploadVideo env = (.failure ("File not found: " ++ env.videoFile), []) := by
  unfold uploadVideo
  rw [if_pos h]

/-- Claim C7 witness: uploading the missing `out.mp4` returns the error
result with no effects, in an environment where authentication and the
upload itself would have succeeded. -/
theorem uploadVideo_missing_file_witness :
    uploadVideo missEnv = (.failure "File not found: out.mp4", []) :=
  uploadVideo_missing_file missEnv rfl

/-- Claim C8 counterexample: a description that already consists of the
default hashtags is not left unchanged; `prepare_video_details` appends the
hashtags again. -/
theorem prepare_hashtags_duplicated :
    (prepareVideoDetails (some dupDescMd)).description
        = defaultHashtags ++ "\n\n" ++ defaultHashtags ∧
    (prepareVideoDetails (some dupDescMd)).description ≠ defaultHashtags :=
  ⟨rfl, by decide⟩

/-- Claim C8 (amended): for every loaded metadata record,
`prepare_video_details` truncates the title to at most 90 characters and
extends the tag list with exactly the default tags not already present; the
description, however, unconditionally receives the default hashtags after a
blank line whenever it is non-empty (and becomes exactly the hashtags when
empty or absent). -/
theorem prepare_video_details_behaviour (md : Metadata) :
    ((prepareVideoDetails (some md)).title).length ≤ 90 ∧
    (prepareVideoDetails (some md)).description
        = (if md.description.getD "" = "" then defaultHashtags
           else md.description.getD "" ++ "\n\n" ++ defaultHashtags) ∧
    (prepareVideoDetails (some md)).tags
        = md.tags.getD [] ++ defaultTags.filter (fun t => !((md.tags.getD []).contains t)) := by
  refine ⟨?_, ?_, ?_⟩
  · simp only [prepareVideoDetails]
    by_cases h : (md.title.getD "Untitled Video").length > 90
    · rw [if_pos h]
      have hl : (String.mk ((md.title.getD "Untitled Video").toList.take 90)).length
          = ((md.title.getD "Untitled Video").toList.take 90).length := rfl
      rw [hl, List.length_take]
      omega
    · rw [if_neg h]
      omega
  · simp only [prepareVideoDetails]
    by_cases h : md.description.getD "" = ""
    · simp [h]
    · have hb : (md.description.getD "" != "") = true := by simpa using h
      rw [if_neg h, hb]
      simp
  · simp only [prepareVideoDetails]
    exact foldAddTags defaultTags (by decide) (md.tags.getD [])

/-- Claim C9: the caption-line filter drops the numeric cue index, the
timestamp line and the blank line of the claim's payload and keeps
`Hello world`, and a `get_yt` run whose caption track carries that payload
persists exactly the text `Hello world`. -/
theorem caption_filter_example :
    pyStrip (transcriptRaw "1\n00:00:01 --> 00:00:02\nHello world\n") = "Hello world" ∧
    getYt capEnv "u" = .ok (capRes, [Effect.network, Effect.writeTranscript "Hello world"]) :=
  ⟨rfl, rfl⟩

/-- Claim C10: at exactly the fixed daily hour (06:30:00.000000 in the
fetcher's fallback, 07:35:00 in `get_next_upload_time`), both slot
computations roll to the following day, because the comparisons are
inclusive (`<=` in the fetcher, `>=` in the uploader). -/
theorem boundary_exact_hour (d : Date) :
    fallbackNext ⟨d, sixThirtyUs⟩ = addOneDay d ∧
    nextUploadTime ⟨d, sevenThirtyFiveUs⟩ = ⟨addOneDay d, sevenThirtyFiveUs⟩ := by
  exact ⟨by simp [fallbackNext], by simp [nextUploadTime]⟩

end Yt
